import Mathlib

/-!
Verification of the videorender job pipeline
(`server/services/videoProcessor.ts`, `server/routes.ts`, `shared/schema.ts`).

The development shallowly embeds the pipeline:

* the loop-fill playlist composer (`processVideo`, lines 180–212) as a pure
  function on rational durations;
* the orchestrator's control flow (`processVideo` as a whole) as a trace of
  observable events, parameterised by an environment that decides which
  fallible external steps (downloads, probes, ffmpeg runs, rename, webhook
  delivery, workspace removal) succeed;
* the request schema (`insertVideoJobSchema` / `songSchema`) and the route
  handlers that consume it.

Durations are rationals (the source works with JavaScript numbers; the
properties at stake are order/arithmetic facts independent of rounding).
-/

namespace VideoRender

/-! ### Playlist composer (videoProcessor.ts lines 180–212)

The source walks the song list, wrapping around for `loopsNeeded =
Math.ceil(TARGET_DURATION / totalDuration)` cycles, appending each song and
accumulating `currentDuration`; a song that would overshoot the target is
appended as a truncated terminal entry (`remainingTime = TARGET_DURATION -
currentDuration`) and the walk stops.  `fillPass` is one pass over the song
list (the inner `for`), `fillLoops` the bounded outer `for`.  A manifest
entry is `(song index, included duration)`; the truncated terminal entry is
recorded at its cut length, exactly as the source computes `remainingTime`. -/

/-- `TARGET_DURATION` (videoProcessor.ts line 10): fixed 30-minute target. -/
def TARGET_DURATION : ℚ := 1800

/-- One pass of the inner `for (let i = 0; ...)` loop over the song
durations, starting at index `i` with accumulator `running`.  Returns the
manifest entries appended during the pass, the final accumulator, and
whether the walk stopped (`break outerLoop`). -/
def fillPass (T : ℚ) : List ℚ → ℕ → ℚ → List (ℕ × ℚ) × ℚ × Bool
  | [], _, running => ([], running, false)
  | d :: ds, i, running =>
    if T < running + d then
      -- currentDuration + songDuration > TARGET_DURATION: truncated entry
      ([(i, T - running)], running, true)
    else
      let running' := running + d
      if T ≤ running' then
        -- currentDuration >= TARGET_DURATION after appending: stop
        ([(i, d)], running', true)
      else
        let rest := fillPass T ds (i + 1) running'
        ((i, d) :: rest.1, rest.2)

/-- The outer `for (let loop = 0; loop < loopsNeeded; loop++)` loop,
with `fuel` remaining cycles. -/
def fillLoops (T : ℚ) (ds : List ℚ) : ℕ → ℚ → List (ℕ × ℚ) × ℚ × Bool
  | 0, running => ([], running, false)
  | fuel + 1, running =>
    let pass := fillPass T ds 0 running
    if pass.2.2 then (pass.1, pass.2.1, true)
    else
      let rest := fillLoops T ds fuel pass.2.1
      (pass.1 ++ rest.1, rest.2)

/-- `loopsNeeded = Math.ceil(TARGET_DURATION / totalDuration)`
(videoProcessor.ts line 180).  In JavaScript, division of the positive
target by a zero total yields `Infinity`, i.e. an unbounded loop; that case
is `none`. -/
def loopsNeeded (T L : ℚ) : Option ℤ :=
  if L = 0 then none else some ⌈T / L⌉

/-- The whole composition step: run the fill loop for `loopsNeeded` cycles
(a negative count runs zero cycles, as in JavaScript).  `none` means the
source's loop bound is infinite (`totalDuration = 0`). -/
def composeManifest (ds : List ℚ) (T : ℚ) : Option (List (ℕ × ℚ) × ℚ × Bool) :=
  (loopsNeeded T ds.sum).map fun k => fillLoops T ds k.toNat 0

/-- Sum of the included durations of a manifest. -/
def manifestSum (m : List (ℕ × ℚ)) : ℚ := (m.map Prod.snd).sum

/-! ### Job statuses (shared/schema.ts `jobStatusSchema`) -/

/-- The job status enum of `jobStatusSchema` (shared/schema.ts). -/
inductive Status
  | queued
  | downloading
  | processing_audio
  | creating_video
  | completed
  | failed
  deriving DecidableEq, Repr

/-- Pipeline stage order; both terminal statuses rank last. -/
def stageRank : Status → ℕ
  | .queued => 0
  | .downloading => 1
  | .processing_audio => 2
  | .creating_video => 3
  | .completed => 4
  | .failed => 4

/-- `completed` and `failed` are the terminal statuses. -/
def isTerminal (s : Status) : Bool := s == .completed || s == .failed

/-! ### Media fetching (videoProcessor.ts `downloadFile`, lines 23–67) -/

/-- What the pipeline observes of an HTTP response: `response.ok`, the
`content-type` header, and the body bytes. -/
structure HttpResponse where
  ok : Bool
  contentType : Option String
  body : List ℕ
  deriving DecidableEq, Repr

/-- First-four-bytes PNG signature test (lines 50): `89 50 4E 47`.  A byte
beyond the end of the body reads as the out-of-range value 256 (JavaScript
`undefined` compares unequal to every byte). -/
def pngSignature (b : List ℕ) : Bool :=
  b.getD 0 256 == 0x89 && b.getD 1 256 == 0x50 && b.getD 2 256 == 0x4E && b.getD 3 256 == 0x47

/-- First-two-bytes JPEG signature test (line 51): `FF D8`. -/
def jpegSignature (b : List ℕ) : Bool :=
  b.getD 0 256 == 0xFF && b.getD 1 256 == 0xD8

/-- `ffmpeg` invocation stage: the two external-tool runs. -/
inductive FFStage
  | audioAssembly
  | videoComposition
  deriving DecidableEq, Repr

/-- Failures the pipeline can abort on (the `catch` in `processVideo`). -/
inductive PipelineError
  | mkdirError
  | downloadError
  | invalidContentType (ct : String)
  | invalidSignature
  | probeError
  | encodingError (stage : FFStage)
  | renameError
  deriving DecidableEq, Repr

/-- JavaScript `contentType.startsWith('image/')`: is `image/` a prefix of
the header's character sequence? -/
def startsWithImage (ct : String) : Bool := "image/".data.isPrefixOf ct.data

/-- `downloadFile` (videoProcessor.ts lines 23–67): reject a non-ok response;
for the thumbnail (`filepath.includes('thumbnail')`) additionally reject a
present, non-empty `content-type` that is not `image/*`, then reject a body
whose leading bytes are neither the PNG nor the JPEG signature.  Other files
get no validation beyond `response.ok`. -/
def downloadFile (isThumbnail : Bool) (resp : HttpResponse) : Except PipelineError Unit :=
  if resp.ok = false then .error .downloadError
  else
    match isThumbnail, resp.contentType with
    | true, some ct =>
      if ct ≠ "" ∧ ¬ startsWithImage ct then .error (.invalidContentType ct)
      else if pngSignature resp.body ∨ jpegSignature resp.body then .ok ()
      else .error .invalidSignature
    | true, none =>
      if pngSignature resp.body ∨ jpegSignature resp.body then .ok ()
      else .error .invalidSignature
    | false, _ => .ok ()

/-- A downloaded asset: the cover image or the `i`-th track. -/
inductive Asset
  | cover
  | track (i : ℕ)
  deriving DecidableEq, Repr

/-- The environment: which fallible external steps succeed for this job.
The pipeline's own logic is deterministic; everything nondeterministic
(network, ffprobe, ffmpeg, filesystem, webhook sink) lives here. -/
structure Env where
  mkdirOk : Bool
  coverResp : HttpResponse
  trackResp : ℕ → HttpResponse
  probeResult : ℕ → Option ℚ
  audioFFOk : Bool
  videoFFOk : Bool
  renameOk : Bool
  webhookDelivered : Bool
  rmOk : Bool

/-- Split the track indices into download batches of `batchSize = 10`
(videoProcessor.ts line 133), with a fuel argument for structural
recursion. -/
def chunksGo : ℕ → List ℕ → List (List ℕ)
  | 0, _ => []
  | _, [] => []
  | fuel + 1, l => l.take 10 :: chunksGo fuel (l.drop 10)

/-- The batches of song indices `0..n-1`, ten per batch. -/
def batchesOf (l : List ℕ) : List (List ℕ) := chunksGo l.length l

/-- Run the batched `Promise.all` downloads (lines 134–145): every download
of a batch is started; a failing batch aborts the job and later batches are
never started.  Returns the indices whose download was started, in order,
and the first error if any. -/
def runBatches (trackResp : ℕ → HttpResponse) : List (List ℕ) → List ℕ × Option PipelineError
  | [] => ([], none)
  | b :: bs =>
    match b.filterMap (fun i =>
        match downloadFile false (trackResp i) with
        | .error e => some e
        | .ok _ => none) with
    | [] =>
      let rest := runBatches trackResp bs
      (b ++ rest.1, rest.2)
    | e :: _ => (b, some e)

/-- The download stage (lines 124–147): the cover is downloaded and
validated first, by itself; only then do the song batches start. -/
def downloadPhase (coverResp : HttpResponse) (trackResp : ℕ → HttpResponse)
    (n : ℕ) : List Asset × Option PipelineError :=
  match downloadFile true coverResp with
  | .error e => ([Asset.cover], some e)
  | .ok _ =>
    let r := runBatches trackResp (batchesOf (List.range n))
    (Asset.cover :: r.1.map Asset.track, r.2)

/-! ### Encoder invocations (videoProcessor.ts `executeFFmpeg`, lines 84–99,
220–238).  `executeFFmpeg` hands its single string to `child_process.exec`,
which interprets it with a shell; the call sites build that string by
template interpolation of workspace paths derived from the job id. -/

/-- How an external command is handed to the operating system. -/
inductive Invocation
  | shellString (cmd : String)
  | argVector (prog : String) (args : List String)
  deriving DecidableEq, Repr

/-- `Invocation.shellString`? -/
def isShellInvocation : Invocation → Bool
  | .shellString _ => true
  | .argVector _ _ => false

/-- `executeFFmpeg` runs its argument through `child_process.exec`, i.e. a
shell-interpreted command string. -/
def executeFFmpegVia (cmd : String) : Invocation := .shellString cmd

/-- `path.join('./temp', jobId)` (line 105), as normalised by `path.join`. -/
def jobDirOf (jobId : String) : String := "temp/" ++ jobId

/-- The audio-assembly command string (lines 221–223), with
`TARGET_DURATION = 1800` and the workspace basenames interpolated. -/
def audioCmd (jobId : String) : String :=
  "cd \"" ++ jobDirOf jobId ++
  "\" && ffmpeg -f concat -safe 0 -i \"concat.txt\" -t 1800 -c:a aac -b:a 128k -ar 48000 -ac 2 -threads 8 -thread_queue_size 2048 -max_muxing_queue_size 4096 \"final_audio.aac\""

/-- The video-composition command string (lines 236–238). -/
def videoCmd (jobId : String) : String :=
  "cd \"" ++ jobDirOf jobId ++
  "\" && ffmpeg -loop 1 -i \"thumbnail.png\" -i \"final_audio.aac\" -c:v libx264 -preset ultrafast -crf 23 -tune stillimage -x264-params keyint=300:min-keyint=300:ref=1:bframes=0:me=dia:subme=0:me_range=4:trellis=0:no-mbtree:no-weightb:no-mixed-refs:aq-mode=0:no-cabac:no-deblock -r 2 -c:a copy -pix_fmt yuv420p -vf \"scale=1920:1080:force_original_aspect_ratio=decrease,pad=1920:1080:(ow-iw)/2:(oh-ih)/2\" -movflags +faststart -t 1800 -threads 8 -thread_type slice -thread_queue_size 4096 -max_muxing_queue_size 8192 -bufsize 16M -maxrate 10M \"" ++
  jobId ++ ".mp4\""

/-! ### Orchestrator trace (videoProcessor.ts `processVideo`, lines 103–379) -/

/-- Observable effects of one `processVideo` run, in order.  `setStatus`
is a `storage.updateVideoJob` carrying a status; `setProgress` one carrying
only progress. -/
inductive Event
  | mkdirWorkspace
  | setStatus (s : Status)
  | setProgress (p : ℕ)
  | download (a : Asset)
  | probe (i : ℕ)
  | runFFmpeg (stage : FFStage) (inv : Invocation)
  | renameOutput
  | sendWebhook (outcome : Status)
  | removeDir
  deriving DecidableEq, Repr

/-- The `catch` block (lines 316–378): record `failed`, send the failure
webhook (its own failure absorbed), remove the workspace (failure
absorbed). -/
def failTail : List Event := [.setStatus .failed, .sendWebhook .failed, .removeDir]

/-- The tail of a successful run (lines 252–314): record `completed`, send
the success webhook, remove the workspace. -/
def doneTail : List Event := [.setStatus .completed, .sendWebhook .completed, .removeDir]

/-- The whole `processVideo` control flow as an event trace.  `none` means
the run reaches the unbounded fill loop (`totalDuration = 0`) and never
terminates; otherwise the trace together with the fatal error (if any) is
returned.  `n` is the number of songs in the request. -/
def pipelineEvents (env : Env) (n : ℕ) (jobId : String) :
    Option (List Event × Option PipelineError) :=
  if env.mkdirOk = false then some (failTail, some .mkdirError)
  else
    let dl := downloadPhase env.coverResp env.trackResp n
    let pre1 := Event.mkdirWorkspace :: Event.setStatus .downloading :: dl.1.map Event.download
    match dl.2 with
    | some e => some (pre1 ++ failTail, some e)
    | none =>
      let pre2 := pre1 ++ Event.setStatus .processing_audio :: (List.range n).map Event.probe
      if (List.range n).all (fun i => (env.probeResult i).isSome) then
        let ds := (List.range n).map fun i => (env.probeResult i).getD 0
        let pre3 := pre2 ++ [Event.setProgress 45]
        match composeManifest ds TARGET_DURATION with
        | none => none
        | some _ =>
          let pre4 := pre3 ++ [Event.setProgress 65,
            Event.runFFmpeg .audioAssembly (executeFFmpegVia (audioCmd jobId))]
          if env.audioFFOk = false then
            some (pre4 ++ failTail, some (.encodingError .audioAssembly))
          else
            let pre5 := pre4 ++ [Event.setStatus .creating_video,
              Event.runFFmpeg .videoComposition (executeFFmpegVia (videoCmd jobId))]
            if env.videoFFOk = false then
              some (pre5 ++ failTail, some (.encodingError .videoComposition))
            else
              let pre6 := pre5 ++ [Event.renameOutput]
              if env.renameOk = false then some (pre6 ++ failTail, some .renameError)
              else some (pre6 ++ doneTail, none)
      else some (pre2 ++ failTail, some .probeError)

/-- The statuses written to the store, in write order. -/
def statusUpdates (tr : List Event) : List Status :=
  tr.filterMap fun e => match e with | .setStatus s => some s | _ => none

/-- The status sequence observed over the job's lifetime: the `queued` set
by `createVideoJob`, then every status written by the pipeline. -/
def jobStatusSeq (tr : List Event) : List Status := Status.queued :: statusUpdates tr

/-- Webhook notifications sent, with their outcome status. -/
def webhookOutcomes (tr : List Event) : List Status :=
  tr.filterMap fun e => match e with | .sendWebhook s => some s | _ => none

/-- Does the workspace directory exist after the trace, given whether the
removal call succeeds?  It is created by `mkdirWorkspace` and removed by a
successful `removeDir`. -/
def wsExistsAfter (rmOk : Bool) (tr : List Event) : Bool :=
  tr.foldl (fun b e =>
    match e with
    | .mkdirWorkspace => true
    | .removeDir => if rmOk then false else b
    | _ => b) false

/-! ### State machine, workspace and webhook claims -/

/-- The path property of the status claim: statuses strictly climb the
stage order and exactly one terminal status occurs. -/
def claimPath (seq : List Status) : Prop :=
  List.Chain' (fun a b => stageRank a < stageRank b) seq ∧
  (seq.filter (fun s => isTerminal s)).length = 1

instance (seq : List Status) : Decidable (claimPath seq) :=
  inferInstanceAs (Decidable (_ ∧ _))

/-- The cancellation endpoint (routes.ts lines 109–131) interleaved after
the `k`-th observed status: it refuses to touch a terminal job, otherwise
writes `failed` — while the pipeline's later writes still happen. -/
def cancelObserved (seq : List Status) (k : ℕ) : List Status :=
  match (seq.take k).getLast? with
  | none => seq
  | some s => if isTerminal s then seq else seq.take k ++ Status.failed :: seq.drop k

/-- The same environment with the webhook delivery outcome replaced. -/
def withWebhookDelivered (env : Env) (b : Bool) : Env :=
  ⟨env.mkdirOk, env.coverResp, env.trackResp, env.probeResult,
    env.audioFFOk, env.videoFFOk, env.renameOk, b, env.rmOk⟩

/-- A well-formed PNG cover response. -/
def okPngResponse : HttpResponse :=
  ⟨true, some "image/png", [0x89, 0x50, 0x4E, 0x47, 0, 0, 0, 0]⟩

/-- A plain successful audio response (tracks are not validated). -/
def okAudioResponse : HttpResponse := ⟨true, none, []⟩

/-- Everything succeeds; every probe reports 180 seconds. -/
def envAllOk : Env :=
  ⟨true, okPngResponse, fun _ => okAudioResponse, fun _ => some 180,
    true, true, true, true, true⟩

/-- Same, but the workspace `mkdir` fails at the very start. -/
def envMkdirFail : Env :=
  ⟨false, okPngResponse, fun _ => okAudioResponse, fun _ => some 180,
    true, true, true, true, true⟩

/-- Same as `envAllOk`, but probing track 0 fails. -/
def envProbeFail : Env :=
  ⟨true, okPngResponse, fun _ => okAudioResponse,
    fun i => if i = 0 then none else some 180,
    true, true, true, true, true⟩

/-! ### Cover validation ordering (C7) -/

/-- An environment whose cover URL answers with `text/html`. -/
def envBadCover : Env :=
  ⟨true, ⟨true, some "text/html", []⟩, fun _ => okAudioResponse,
    fun _ => some 180, true, true, true, true, true⟩

/-! ### Request schema (shared/schema.ts) and submit route (routes.ts) -/

/-- A validated `songSchema` value: title, file URL, declared length. -/
structure Song where
  title : String
  file_url : String
  length : ℚ
  deriving DecidableEq, Repr

/-- A validated `insertVideoJobSchema` value.  The nullable/defaulted
columns (`status`, `progress`, `video_url`, `error_message`) are omitted:
the pipeline never reads them from the request. -/
structure InsertVideoJob where
  video_creation_id : String
  title : String
  channel_id : String
  thumbnail_url : String
  songs : List Song
  deriving DecidableEq, Repr

/-- The target duration the pipeline uses for a request: `processVideo`
ignores the request entirely and uses the module constant
`TARGET_DURATION` (lines 10, 180, 188, 222, 237). -/
def pipelineTarget (_r : InsertVideoJob) : ℚ := TARGET_DURATION

/-- A raw (pre-validation) song object: each field may be absent. -/
structure RawSong where
  title : Option String
  file_url : Option String
  length : Option ℚ
  deriving DecidableEq, Repr

/-- A raw (pre-validation) request body. -/
structure RawRequest where
  video_creation_id : Option String
  title : Option String
  channel_id : Option String
  thumbnail_url : Option String
  songs : List RawSong
  deriving DecidableEq, Repr

/-- `songSchema` (shared/schema.ts lines 22–26): `title` a string,
`file_url` a string accepted by the URL check, `length` a strictly
positive number.  The URL check itself (`z.string().url()`) is abstracted
as a parameter `urlOk`. -/
def parseSong (urlOk : String → Bool) (rs : RawSong) : Option Song :=
  match rs.title, rs.file_url, rs.length with
  | some t, some u, some l =>
    if urlOk u ∧ 0 < l then some ⟨t, u, l⟩ else none
  | _, _, _ => none

/-- Parse every song in order; any failure rejects the list. -/
def parseSongs (urlOk : String → Bool) : List RawSong → Option (List Song)
  | [] => some []
  | rs :: rest =>
    match parseSong urlOk rs, parseSongs urlOk rest with
    | some s, some ss => some (s :: ss)
    | _, _ => none

/-- `insertVideoJobSchema` (shared/schema.ts lines 28–36): the four
metadata strings are required, and `songs` is
`z.array(songSchema).length(10)` — exactly ten valid songs. -/
def parseInsertVideoJob (urlOk : String → Bool) (r : RawRequest) :
    Option InsertVideoJob :=
  match r.video_creation_id, r.title, r.channel_id, r.thumbnail_url with
  | some v, some t, some c, some th =>
    match parseSongs urlOk r.songs with
    | some songs =>
      if songs.length = 10 then some ⟨v, t, c, th, songs⟩ else none
    | none => none
  | _, _, _, _ => none

/-- Effects of the POST handler relevant to validation ordering. -/
inductive RouteEvent
  | createJob
  | startProcessing
  deriving DecidableEq, Repr

/-- `POST /api/video-jobs` (routes.ts lines 12–59): `insertVideoJobSchema.parse`
throws a `ZodError` answered with status 400 before `storage.createVideoJob`
is ever called; a valid body creates the job and starts processing. -/
def postVideoJobs (urlOk : String → Bool) (r : RawRequest) :
    ℕ × List RouteEvent :=
  match parseInsertVideoJob urlOk r with
  | none => (400, [])
  | some _ => (200, [RouteEvent.createJob, RouteEvent.startProcessing])

/-- A raw song is valid for `songSchema`: all three fields present, the
URL check passes, the declared length is strictly positive. -/
def validSong (urlOk : String → Bool) (rs : RawSong) : Prop :=
  ∃ t u l, rs.title = some t ∧ rs.file_url = some u ∧ rs.length = some l ∧
    urlOk u = true ∧ 0 < l

/-- The sample URL check: the string starts with `https://`. -/
def urlHttp : String → Bool := fun u => "https://".data.isPrefixOf u.data

/-- A valid raw song. -/
def rawSongOk : RawSong :=
  ⟨some "track", some "https://cdn.example.com/a.mp3", some 120⟩

/-- A valid raw request with exactly ten valid songs. -/
def rawReqOk : RawRequest :=
  ⟨some "vc1", some "Mix", some "chan",
    some "https://cdn.example.com/c.png", List.replicate 10 rawSongOk⟩

/-- Concrete request A. -/
def reqA : InsertVideoJob :=
  ⟨"vc1", "Lofi Mix", "chan1", "https://cdn.example.com/a.png",
    List.replicate 10 ⟨"s", "https://cdn.example.com/a.mp3", 120⟩⟩

/-- Concrete request B, different in every field. -/
def reqB : InsertVideoJob :=
  ⟨"vc2", "Jazz Mix", "chan2", "https://cdn.example.com/b.png",
    List.replicate 10 ⟨"t", "https://cdn.example.com/b.mp3", 300⟩⟩

/-! ## Theorems -/

example : composeManifest [500, 500] 1800 =
    some ([(0, 500), (1, 500), (0, 500), (1, 300)], 1500, true) := by
  have h : ⌈(9 : ℚ) / 5⌉ = 2 := by
    rw [Int.ceil_eq_iff] ; constructor <;> norm_num
  norm_num [composeManifest, loopsNeeded, h, fillLoops, fillPass]

example : manifestSum [(0, 500), (1, 500), (0, 500), (1, 300)] = 1800 := by
  norm_num [manifestSum]

example : composeManifest [0, 0] 1800 = none := by
  norm_num [composeManifest, loopsNeeded]

theorem fillPass_done (T : ℚ) :
    ∀ (ds : List ℚ) (i : ℕ) (running : ℚ),
      (fillPass T ds i running).2.2 = true →
      running + manifestSum (fillPass T ds i running).1 = T := by
  intro ds
  induction ds with
  | nil => intro i running h ; simp [fillPass] at h
  | cons d ds ih =>
    intro i running h
    simp only [fillPass] at h ⊢
    split_ifs at h ⊢ with h1 h2
    · dsimp only
      simp only [manifestSum, List.map_cons, List.map_nil, List.sum_cons, List.sum_nil]
      ring
    · dsimp only
      simp only [manifestSum, List.map_cons, List.map_nil, List.sum_cons, List.sum_nil]
      push_neg at h1
      linarith
    · dsimp only at h ⊢
      have := ih (i + 1) (running + d) h
      simp only [manifestSum, List.map_cons, List.sum_cons] at this ⊢
      linarith

theorem fillPass_not_done (T : ℚ) :
    ∀ (ds : List ℚ) (i : ℕ) (running : ℚ),
      (fillPass T ds i running).2.2 = false →
      (fillPass T ds i running).2.1 = running + ds.sum ∧
      manifestSum (fillPass T ds i running).1 = ds.sum ∧
      (running < T → (fillPass T ds i running).2.1 < T) := by
  intro ds
  induction ds with
  | nil => intro i running _ ; simp [fillPass, manifestSum]
  | cons d ds ih =>
    intro i running h
    simp only [fillPass] at h ⊢
    split_ifs at h ⊢ with h1 h2
    dsimp only at h ⊢
    · have hlt : running + d < T := by push_neg at h2 ; exact h2
      obtain ⟨hr, hm, himp⟩ := ih (i + 1) (running + d) h
      refine ⟨?_, ?_, ?_⟩
      · simp only [List.sum_cons] ; rw [hr] ; ring
      · simp only [manifestSum, List.map_cons, List.sum_cons] at hm ⊢
        rw [hm]
      · intro _ ; exact himp hlt

theorem fillLoops_done (T : ℚ) (ds : List ℚ) :
    ∀ (n : ℕ) (running : ℚ),
      (fillLoops T ds n running).2.2 = true →
      running + manifestSum (fillLoops T ds n running).1 = T := by
  intro n
  induction n with
  | zero => intro running h ; simp [fillLoops] at h
  | succ n ih =>
    intro running h
    simp only [fillLoops] at h ⊢
    split_ifs at h ⊢ with h1
    · exact fillPass_done T ds 0 running h1
    · dsimp only at h ⊢
      obtain ⟨hr, hm, _⟩ := fillPass_not_done T ds 0 running (by simpa using h1)
      have := ih (fillPass T ds 0 running).2.1 h
      simp only [manifestSum, List.map_append, List.sum_append] at this ⊢
      simp only [manifestSum] at hm
      linarith

theorem fillLoops_not_done (T : ℚ) (ds : List ℚ) :
    ∀ (n : ℕ) (running : ℚ),
      (fillLoops T ds n running).2.2 = false →
      (fillLoops T ds n running).2.1 = running + n * ds.sum ∧
      (running < T → (fillLoops T ds n running).2.1 < T) := by
  intro n
  induction n with
  | zero => intro running _ ; simp [fillLoops]
  | succ n ih =>
    intro running h
    simp only [fillLoops] at h ⊢
    split_ifs at h ⊢ with h1
    dsimp only at h ⊢
    obtain ⟨hr, _, himp⟩ := fillPass_not_done T ds 0 running (by simpa using h1)
    obtain ⟨hr2, himp2⟩ := ih (fillPass T ds 0 running).2.1 h
    constructor
    · rw [hr2, hr] ; push_cast ; ring
    · intro hrun
      exact himp2 (himp hrun)

/-- C1: for valid durations (nonnegative, at least one positive) and a
positive target, the loop-fill composition terminates with the stop flag set
and its manifest's included durations sum exactly to the target. -/
theorem C1_manifest_sum_exact (ds : List ℚ) (T : ℚ)
    (hT : 0 < T) (hnn : ∀ d ∈ ds, 0 ≤ d) (hpos : ∃ d ∈ ds, 0 < d) :
    ∃ m r, composeManifest ds T = some (m, r, true) ∧ manifestSum m = T := by
  obtain ⟨d0, hd0mem, hd0⟩ := hpos
  have hL : 0 < ds.sum := lt_of_lt_of_le hd0 (List.single_le_sum hnn d0 hd0mem)
  have hLne : ds.sum ≠ 0 := ne_of_gt hL
  set k : ℤ := ⌈T / ds.sum⌉ with hk
  have hkpos : 0 < k := Int.ceil_pos.mpr (div_pos hT hL)
  set n : ℕ := k.toNat with hn
  have hcast : (n : ℚ) = (k : ℚ) := by
    rw [hn] ; exact_mod_cast Int.toNat_of_nonneg hkpos.le
  have hbound : T ≤ (n : ℚ) * ds.sum := by
    have h1 : T / ds.sum ≤ (k : ℚ) := Int.le_ceil _
    have h2 : T / ds.sum * ds.sum ≤ (k : ℚ) * ds.sum :=
      mul_le_mul_of_nonneg_right h1 hL.le
    rwa [div_mul_cancel₀ _ hLne, ← hcast] at h2
  have hdone : (fillLoops T ds n 0).2.2 = true := by
    by_contra hnd
    obtain ⟨hr, himp⟩ := fillLoops_not_done T ds n 0 (by simpa using hnd)
    have := himp hT
    rw [hr] at this
    simp only [zero_add] at this
    linarith
  refine ⟨(fillLoops T ds n 0).1, (fillLoops T ds n 0).2.1, ?_, ?_⟩
  · have hln : loopsNeeded T ds.sum = some k := by
      rw [loopsNeeded, if_neg hLne]
    rw [composeManifest, hln, Option.map_some', ← hn, ← hdone]
  · have := fillLoops_done T ds n 0 hdone
    linarith

/-- C1 witness: the composer at durations `[500, 500]` and target `1800`. -/
theorem C1_manifest_sum_exact_witness :
    ∃ m r, composeManifest [500, 500] 1800 = some (m, r, true) ∧
      manifestSum m = 1800 :=
  C1_manifest_sum_exact [500, 500] 1800 (by norm_num) (by norm_num)
    ⟨500, by norm_num⟩

theorem fillPass_nonpos (T : ℚ) (hT : 0 < T) :
    ∀ (ds : List ℚ), (∀ d ∈ ds, d ≤ 0) →
      ∀ (i : ℕ) (running : ℚ), running ≤ 0 →
      (fillPass T ds i running).2.2 = false ∧ (fillPass T ds i running).2.1 ≤ 0 := by
  intro ds
  induction ds with
  | nil => intro _ i running hr ; simp [fillPass, hr]
  | cons d ds ih =>
    intro hnp i running hr
    have hd : d ≤ 0 := hnp d (List.mem_cons_self d ds)
    have hr' : running + d ≤ 0 := by linarith
    have h1 : ¬ T < running + d := by push_neg ; linarith
    have h2 : ¬ T ≤ running + d := by push_neg ; linarith
    simp only [fillPass, if_neg h1, if_neg h2]
    exact ih (fun e he => hnp e (List.mem_cons_of_mem d he)) (i + 1) (running + d) hr'

/-- C2: when every chosen duration is ≤ 0 the code raises no error at all.
If the durations sum to something negative the outer loop bound
`Math.ceil(T/L)` is negative and the walk ends at once with an empty
manifest; if they sum to 0 the bound is `Infinity` (`composeManifest`
returns `none`) and no number of cycles ever sets the stop flag — the
source loops forever.  The claimed `CompositionError` does not exist in the
code. -/
theorem C2_nonpos_durations_no_error_and_no_stop (ds : List ℚ) (T : ℚ)
    (hT : 0 < T) (hnp : ∀ d ∈ ds, d ≤ 0) :
    (∀ n : ℕ, (fillLoops T ds n 0).2.2 = false) ∧
    (ds.sum = 0 → composeManifest ds T = none) := by
  constructor
  · have key : ∀ (n : ℕ) (running : ℚ), running ≤ 0 →
        (fillLoops T ds n running).2.2 = false ∧
        (fillLoops T ds n running).2.1 ≤ 0 := by
      intro n
      induction n with
      | zero => intro running hr ; simp [fillLoops, hr]
      | succ n ih =>
        intro running hr
        obtain ⟨hpass, hpr⟩ := fillPass_nonpos T hT ds hnp 0 running hr
        simp only [fillLoops, hpass, if_neg (by simp : ¬ (false = true))]
        exact ih (fillPass T ds 0 running).2.1 hpr
    intro n
    exact (key n 0 le_rfl).1
  · intro hsum
    simp [composeManifest, loopsNeeded, hsum]

/-- C2 witness: ten zero-duration tracks at the fixed 30-minute target —
five cycles (or any number) never reach the stop condition, and the loop
bound itself is infinite. -/
theorem C2_nonpos_durations_no_error_and_no_stop_witness :
    (fillLoops 1800 (List.replicate 10 (0 : ℚ)) 5 0).2.2 = false ∧
    composeManifest (List.replicate 10 (0 : ℚ)) 1800 = none := by
  have h := C2_nonpos_durations_no_error_and_no_stop
    (List.replicate 10 (0 : ℚ)) 1800 (by norm_num)
    (by intro d hd ; rw [List.eq_of_mem_replicate hd])
  exact ⟨h.1 5, h.2 (by simp)⟩

@[simp] theorem statusUpdates_nil : statusUpdates [] = [] := rfl

@[simp] theorem statusUpdates_append (a b : List Event) :
    statusUpdates (a ++ b) = statusUpdates a ++ statusUpdates b :=
  List.filterMap_append a b _

@[simp] theorem statusUpdates_map_download (l : List Asset) :
    statusUpdates (l.map Event.download) = [] := by
  induction l with
  | nil => rfl
  | cons a l ih => simp [statusUpdates, ih]

@[simp] theorem statusUpdates_map_probe (l : List ℕ) :
    statusUpdates (l.map Event.probe) = [] := by
  induction l with
  | nil => rfl
  | cons a l ih => simp [statusUpdates, ih]

@[simp] theorem statusUpdates_map_comp_download {α : Type} (f : α → Asset)
    (l : List α) : statusUpdates (l.map (Event.download ∘ f)) = [] := by
  induction l with
  | nil => rfl
  | cons a l ih => simp [statusUpdates, ih]

@[simp] theorem webhookOutcomes_nil : webhookOutcomes [] = [] := rfl

@[simp] theorem webhookOutcomes_append (a b : List Event) :
    webhookOutcomes (a ++ b) = webhookOutcomes a ++ webhookOutcomes b :=
  List.filterMap_append a b _

@[simp] theorem webhookOutcomes_map_download (l : List Asset) :
    webhookOutcomes (l.map Event.download) = [] := by
  induction l with
  | nil => rfl
  | cons a l ih => simp [webhookOutcomes, ih]

@[simp] theorem webhookOutcomes_map_comp_download {α : Type} (f : α → Asset)
    (l : List α) : webhookOutcomes (l.map (Event.download ∘ f)) = [] := by
  induction l with
  | nil => rfl
  | cons a l ih => simp [webhookOutcomes, ih]

@[simp] theorem webhookOutcomes_map_probe (l : List ℕ) :
    webhookOutcomes (l.map Event.probe) = [] := by
  induction l with
  | nil => rfl
  | cons a l ih => simp [webhookOutcomes, ih]

@[simp] theorem statusUpdates_cons_mkdir (tr : List Event) :
    statusUpdates (Event.mkdirWorkspace :: tr) = statusUpdates tr := rfl

@[simp] theorem statusUpdates_cons_set (s : Status) (tr : List Event) :
    statusUpdates (Event.setStatus s :: tr) = s :: statusUpdates tr := rfl

@[simp] theorem statusUpdates_cons_progress (p : ℕ) (tr : List Event) :
    statusUpdates (Event.setProgress p :: tr) = statusUpdates tr := rfl

@[simp] theorem statusUpdates_cons_download (a : Asset) (tr : List Event) :
    statusUpdates (Event.download a :: tr) = statusUpdates tr := rfl

@[simp] theorem statusUpdates_cons_probe (i : ℕ) (tr : List Event) :
    statusUpdates (Event.probe i :: tr) = statusUpdates tr := rfl

@[simp] theorem statusUpdates_cons_ffmpeg (st : FFStage) (inv : Invocation) (tr : List Event) :
    statusUpdates (Event.runFFmpeg st inv :: tr) = statusUpdates tr := rfl

@[simp] theorem statusUpdates_cons_rename (tr : List Event) :
    statusUpdates (Event.renameOutput :: tr) = statusUpdates tr := rfl

@[simp] theorem statusUpdates_cons_webhook (s : Status) (tr : List Event) :
    statusUpdates (Event.sendWebhook s :: tr) = statusUpdates tr := rfl

@[simp] theorem statusUpdates_cons_removeDir (tr : List Event) :
    statusUpdates (Event.removeDir :: tr) = statusUpdates tr := rfl

@[simp] theorem webhookOutcomes_cons_mkdir (tr : List Event) :
    webhookOutcomes (Event.mkdirWorkspace :: tr) = webhookOutcomes tr := rfl

@[simp] theorem webhookOutcomes_cons_set (s : Status) (tr : List Event) :
    webhookOutcomes (Event.setStatus s :: tr) = webhookOutcomes tr := rfl

@[simp] theorem webhookOutcomes_cons_progress (p : ℕ) (tr : List Event) :
    webhookOutcomes (Event.setProgress p :: tr) = webhookOutcomes tr := rfl

@[simp] theorem webhookOutcomes_cons_download (a : Asset) (tr : List Event) :
    webhookOutcomes (Event.download a :: tr) = webhookOutcomes tr := rfl

@[simp] theorem webhookOutcomes_cons_probe (i : ℕ) (tr : List Event) :
    webhookOutcomes (Event.probe i :: tr) = webhookOutcomes tr := rfl

@[simp] theorem webhookOutcomes_cons_ffmpeg (st : FFStage) (inv : Invocation) (tr : List Event) :
    webhookOutcomes (Event.runFFmpeg st inv :: tr) = webhookOutcomes tr := rfl

@[simp] theorem webhookOutcomes_cons_rename (tr : List Event) :
    webhookOutcomes (Event.renameOutput :: tr) = webhookOutcomes tr := rfl

@[simp] theorem webhookOutcomes_cons_webhook (s : Status) (tr : List Event) :
    webhookOutcomes (Event.sendWebhook s :: tr) = s :: webhookOutcomes tr := rfl

@[simp] theorem webhookOutcomes_cons_removeDir (tr : List Event) :
    webhookOutcomes (Event.removeDir :: tr) = webhookOutcomes tr := rfl

/-- Master structural lemma: every terminating `processVideo` run ends with
a terminal status write, then the one webhook call with that outcome, then
the workspace removal; the statuses written along the way are one of five
monotone sequences; and the run completes iff no fatal error occurred. -/
theorem pipelineEvents_shape (env : Env) (n : ℕ) (jobId : String)
    (tr : List Event) (err : Option PipelineError)
    (h : pipelineEvents env n jobId = some (tr, err)) :
    ∃ pre s, tr = pre ++ [Event.setStatus s, Event.sendWebhook s, Event.removeDir] ∧
      isTerminal s = true ∧
      webhookOutcomes pre = [] ∧
      statusUpdates pre ++ [s] ∈ [[Status.failed],
        [Status.downloading, Status.failed],
        [Status.downloading, Status.processing_audio, Status.failed],
        [Status.downloading, Status.processing_audio, Status.creating_video, Status.failed],
        [Status.downloading, Status.processing_audio, Status.creating_video, Status.completed]] ∧
      (err = none ↔ s = Status.completed) := by
  simp only [pipelineEvents] at h
  split at h
  · rw [Option.some.injEq, Prod.mk.injEq] at h
    obtain ⟨rfl, rfl⟩ := h
    exact ⟨[], Status.failed, rfl, rfl, rfl, by simp, by simp⟩
  · split at h
    · rw [Option.some.injEq, Prod.mk.injEq] at h
      obtain ⟨rfl, rfl⟩ := h
      refine ⟨_, Status.failed, rfl, rfl, ?_, ?_, by simp⟩
      · simp
      · simp
    · split at h
      · split at h
        · exact absurd h (by simp)
        · split at h
          · rw [Option.some.injEq, Prod.mk.injEq] at h
            obtain ⟨rfl, rfl⟩ := h
            refine ⟨_, Status.failed, rfl, rfl, ?_, ?_, by simp⟩
            · simp
            · simp
          · split at h
            · rw [Option.some.injEq, Prod.mk.injEq] at h
              obtain ⟨rfl, rfl⟩ := h
              refine ⟨_, Status.failed, rfl, rfl, ?_, ?_, by simp⟩
              · simp
              · simp
            · split at h
              · rw [Option.some.injEq, Prod.mk.injEq] at h
                obtain ⟨rfl, rfl⟩ := h
                refine ⟨_, Status.failed, rfl, rfl, ?_, ?_, by simp⟩
                · simp
                · simp
              · rw [Option.some.injEq, Prod.mk.injEq] at h
                obtain ⟨rfl, rfl⟩ := h
                refine ⟨_, Status.completed, rfl, rfl, ?_, ?_, by simp⟩
                · simp
                · simp
      · rw [Option.some.injEq, Prod.mk.injEq] at h
        obtain ⟨rfl, rfl⟩ := h
        refine ⟨_, Status.failed, rfl, rfl, ?_, ?_, by simp⟩
        · simp
        · simp

/-- C4 (amended): in the absence of a cancellation request, the statuses
observed over a terminating run form a strictly stage-increasing path from
`queued` with exactly one terminal status. -/
theorem C4_status_path_without_cancel (env : Env) (n : ℕ) (jobId : String)
    (tr : List Event) (err : Option PipelineError)
    (h : pipelineEvents env n jobId = some (tr, err)) :
    claimPath (jobStatusSeq tr) := by
  obtain ⟨pre, s, rfl, hterm, hwh, hmem, hiff⟩ :=
    pipelineEvents_shape env n jobId tr err h
  have hseq : jobStatusSeq (pre ++ [Event.setStatus s, Event.sendWebhook s,
      Event.removeDir]) = Status.queued :: (statusUpdates pre ++ [s]) := by
    simp [jobStatusSeq]
  rw [hseq]
  simp only [List.mem_cons, List.mem_singleton, List.not_mem_nil, or_false] at hmem
  rcases hmem with h5 | h5 | h5 | h5 | h5 <;> rw [h5] <;>
    exact ⟨by norm_num [List.chain'_cons, stageRank], by decide⟩

/-- C4 witness: a run failing at workspace creation still yields a valid
status path. -/
theorem C4_status_path_without_cancel_witness :
    claimPath (jobStatusSeq failTail) :=
  C4_status_path_without_cancel envMkdirFail 0 "j" failTail
    (some PipelineError.mkdirError) rfl

/-- C5: every terminating run ends with the terminal status write, the
webhook, and the workspace removal; if the filesystem removal succeeds the
workspace no longer exists after the trace. -/
theorem C5_workspace_deleted_at_termination (env : Env) (n : ℕ)
    (jobId : String) (tr : List Event) (err : Option PipelineError)
    (h : pipelineEvents env n jobId = some (tr, err)) :
    (∃ pre s, tr = pre ++ [Event.setStatus s, Event.sendWebhook s,
        Event.removeDir] ∧ isTerminal s = true) ∧
    (env.rmOk = true → wsExistsAfter env.rmOk tr = false) := by
  obtain ⟨pre, s, rfl, hterm, _, _, _⟩ :=
    pipelineEvents_shape env n jobId tr err h
  refine ⟨⟨pre, s, rfl, hterm⟩, ?_⟩
  intro hrm
  rw [hrm]
  simp [wsExistsAfter, List.foldl_append]

/-- C5 witness: the workspace is gone after the failing run's trace. -/
theorem C5_workspace_deleted_at_termination_witness :
    wsExistsAfter envMkdirFail.rmOk failTail = false :=
  (C5_workspace_deleted_at_termination envMkdirFail 0 "j" failTail
    (some PipelineError.mkdirError) rfl).2 rfl

/-- C8: every terminating run sends exactly one webhook, carrying the
terminal outcome just recorded; no status write follows it, and the whole
trace is independent of whether the delivery succeeds. -/
theorem C8_webhook_once_with_terminal_outcome (env : Env) (n : ℕ)
    (jobId : String) (tr : List Event) (err : Option PipelineError)
    (h : pipelineEvents env n jobId = some (tr, err)) :
    (∃ pre s, tr = pre ++ [Event.setStatus s, Event.sendWebhook s,
        Event.removeDir] ∧ isTerminal s = true ∧
      webhookOutcomes tr = [s] ∧
      statusUpdates tr = statusUpdates pre ++ [s]) ∧
    (∀ b, pipelineEvents (withWebhookDelivered env b) n jobId =
      pipelineEvents env n jobId) := by
  constructor
  · obtain ⟨pre, s, rfl, hterm, hwh, _, _⟩ :=
      pipelineEvents_shape env n jobId tr err h
    exact ⟨pre, s, rfl, hterm, by simp [hwh], by simp⟩
  · intro b
    cases env
    rfl

/-- C8 witness: delivery outcome does not affect the failing run's trace. -/
theorem C8_webhook_once_with_terminal_outcome_witness :
    pipelineEvents (withWebhookDelivered envMkdirFail false) 0 "j" =
      pipelineEvents envMkdirFail 0 "j" :=
  (C8_webhook_once_with_terminal_outcome envMkdirFail 0 "j" failTail
    (some PipelineError.mkdirError) rfl).2 false

theorem downloadPhase_snd_none_cover_ok (cover : HttpResponse)
    (trackResp : ℕ → HttpResponse) (n : ℕ)
    (h : (downloadPhase cover trackResp n).2 = none) :
    downloadFile true cover = Except.ok () := by
  rw [downloadPhase] at h
  cases hdf : downloadFile true cover with
  | error e => rw [hdf] at h ; simp at h
  | ok u => cases u ; rfl

theorem downloadPhase_track_mem (cover : HttpResponse)
    (trackResp : ℕ → HttpResponse) (n i : ℕ)
    (h : Asset.track i ∈ (downloadPhase cover trackResp n).1) :
    downloadFile true cover = Except.ok () := by
  rw [downloadPhase] at h
  cases hdf : downloadFile true cover with
  | error e => rw [hdf] at h ; simp at h
  | ok u => cases u ; rfl

/-- C7: a cover response declaring a non-image content type fails the job
with the invalid-content-type error and no track download ever starts; and
in any terminating run whatsoever, a track download implies the cover had
already passed both validation checks. -/
theorem C7_cover_validation_precedes_tracks (env : Env) (n : ℕ)
    (jobId : String) (tr : List Event) (err : Option PipelineError)
    (ct : String) (h : pipelineEvents env n jobId = some (tr, err)) :
    (env.mkdirOk = true → env.coverResp.ok = true →
      env.coverResp.contentType = some ct → ct ≠ "" →
      startsWithImage ct = false →
      err = some (PipelineError.invalidContentType ct) ∧
      ∀ i, Event.download (Asset.track i) ∉ tr) ∧
    ((∃ i, Event.download (Asset.track i) ∈ tr) →
      downloadFile true env.coverResp = Except.ok ()) := by
  constructor
  · intro hmk hok hct hne hsw
    have hdf : downloadFile true env.coverResp =
        Except.error (PipelineError.invalidContentType ct) := by
      simp [downloadFile, hct, hok, hne, hsw]
    have hdp : downloadPhase env.coverResp env.trackResp n =
        ([Asset.cover], some (PipelineError.invalidContentType ct)) := by
      rw [downloadPhase, hdf]
    simp [pipelineEvents, hmk, hdp] at h
    obtain ⟨htr, herr⟩ := h
    subst htr
    subst herr
    refine ⟨rfl, ?_⟩
    intro i
    simp [failTail]
  · rintro ⟨i, hmem⟩
    simp only [pipelineEvents] at h
    split at h
    · rw [Option.some.injEq, Prod.mk.injEq] at h
      obtain ⟨htr, _⟩ := h
      subst htr
      simp [failTail] at hmem
    · split at h
      · rw [Option.some.injEq, Prod.mk.injEq] at h
        obtain ⟨htr, _⟩ := h
        subst htr
        simp [failTail] at hmem
        exact downloadPhase_track_mem _ _ _ _ hmem
      · rename_i heq
        exact downloadPhase_snd_none_cover_ok _ _ _ heq

/-- C7 witness: the `text/html` cover of `envBadCover` — no track download
occurs in the resulting trace. -/
theorem C7_cover_validation_precedes_tracks_witness :
    Event.download (Asset.track 0) ∉
      ([Event.mkdirWorkspace, Event.setStatus Status.downloading,
        Event.download Asset.cover] ++ failTail) :=
  ((C7_cover_validation_precedes_tracks envBadCover 10 "job1" _ _
      "text/html" rfl).1 rfl rfl rfl (by decide) (by decide)).2 0

/-- Every ffmpeg event of any terminating run carries a shell-string
invocation: the only invocations the pipeline ever makes are
`executeFFmpegVia` of the two interpolated command strings. -/
theorem pipeline_ffmpeg_events_shell (jobId : String) :
    ∀ (env : Env) (n : ℕ) (tr : List Event) (err : Option PipelineError)
      (st : FFStage) (inv : Invocation),
      pipelineEvents env n jobId = some (tr, err) →
      Event.runFFmpeg st inv ∈ tr → isShellInvocation inv = true := by
  intro env n tr err st inv h hmem
  simp only [pipelineEvents] at h
  split at h
  · rw [Option.some.injEq, Prod.mk.injEq] at h
    obtain ⟨htr, _⟩ := h
    subst htr
    simp [failTail] at hmem
  · split at h
    · rw [Option.some.injEq, Prod.mk.injEq] at h
      obtain ⟨htr, _⟩ := h
      subst htr
      simp [failTail] at hmem
    · split at h
      · split at h
        · exact absurd h (by simp)
        · split at h
          · rw [Option.some.injEq, Prod.mk.injEq] at h
            obtain ⟨htr, _⟩ := h
            subst htr
            simp [failTail] at hmem
            obtain ⟨_, rfl⟩ := hmem
            rfl
          · split at h
            · rw [Option.some.injEq, Prod.mk.injEq] at h
              obtain ⟨htr, _⟩ := h
              subst htr
              simp [failTail] at hmem
              rcases hmem with ⟨_, rfl⟩ | ⟨_, rfl⟩ <;> rfl
            · split at h
              · rw [Option.some.injEq, Prod.mk.injEq] at h
                obtain ⟨htr, _⟩ := h
                subst htr
                simp [failTail] at hmem
                rcases hmem with ⟨_, rfl⟩ | ⟨_, rfl⟩ <;> rfl
              · rw [Option.some.injEq, Prod.mk.injEq] at h
                obtain ⟨htr, _⟩ := h
                subst htr
                simp [doneTail] at hmem
                rcases hmem with ⟨_, rfl⟩ | ⟨_, rfl⟩ <;> rfl
      · rw [Option.some.injEq, Prod.mk.injEq] at h
        obtain ⟨htr, _⟩ := h
        subst htr
        simp [failTail] at hmem

/-- C9 (amended): both external-tool invocations hand the entire command —
file paths included — to the shell as one interpolated string
(`child_process.exec`), for every job id. -/
theorem C9_ffmpeg_invocations_are_shell_strings (jobId : String) :
    isShellInvocation (executeFFmpegVia (audioCmd jobId)) = true ∧
    isShellInvocation (executeFFmpegVia (videoCmd jobId)) = true :=
  ⟨rfl, rfl⟩

/-- C9 counterexample to the claim as stated: at the concrete job id
`job_1`, both invocations go through a shell-interpreted command string,
not an argument vector. -/
theorem C9_counterexample_shell_not_argv :
    isShellInvocation (executeFFmpegVia (audioCmd "job_1")) = true ∧
    isShellInvocation (executeFFmpegVia (videoCmd "job_1")) = true ∧
    audioCmd "job_1" =
      "cd \"temp/job_1\" && ffmpeg -f concat -safe 0 -i \"concat.txt\" -t 1800 -c:a aac -b:a 128k -ar 48000 -ac 2 -threads 8 -thread_queue_size 2048 -max_muxing_queue_size 4096 \"final_audio.aac\"" :=
  ⟨rfl, rfl, rfl⟩

/-- C6 (amended): the pipeline's target duration is the hardcoded module
constant `TARGET_DURATION = 1800` for every request; the validated request
carries no target-duration field the pipeline could read. -/
theorem C6_target_duration_fixed :
    (∀ r : InsertVideoJob, pipelineTarget r = TARGET_DURATION) ∧
    TARGET_DURATION = 1800 :=
  ⟨fun _ => rfl, rfl⟩

/-- C6 counterexample: two requests differing in every field get the same
1800-second target — the submitted data does not determine `T`. -/
theorem C6_counterexample_target_ignores_request :
    reqA.title ≠ reqB.title ∧ reqA.songs ≠ reqB.songs ∧
    pipelineTarget reqA = 1800 ∧ pipelineTarget reqB = 1800 :=
  ⟨by decide, by decide, rfl, rfl⟩

theorem parseSong_isSome_iff (urlOk : String → Bool) (rs : RawSong) :
    (parseSong urlOk rs).isSome = true ↔ validSong urlOk rs := by
  obtain ⟨t, u, l⟩ := rs
  cases t <;> cases u <;> cases l <;>
    simp [parseSong, validSong] <;>
    split_ifs with hc <;> simp_all

theorem parseSongs_isSome_iff (urlOk : String → Bool) :
    ∀ l : List RawSong,
      (parseSongs urlOk l).isSome = true ↔
        ∀ rs ∈ l, (parseSong urlOk rs).isSome = true := by
  intro l
  induction l with
  | nil => simp [parseSongs]
  | cons rs rest ih =>
    simp only [parseSongs]
    cases hs : parseSong urlOk rs with
    | none =>
      simp only [List.mem_cons]
      constructor
      · intro h ; simp at h
      · intro h
        have := h rs (Or.inl rfl)
        rw [hs] at this
        simp at this
    | some s =>
      cases hss : parseSongs urlOk rest with
      | none =>
        simp only [List.mem_cons]
        constructor
        · intro h ; simp at h
        · intro h
          have : (parseSongs urlOk rest).isSome = true :=
            ih.mpr fun x hx => h x (Or.inr hx)
          rw [hss] at this
          simp at this
      | some ss =>
        simp only [List.mem_cons, Option.isSome_some, true_iff]
        intro x hx
        rcases hx with rfl | hx
        · rw [hs] ; rfl
        · exact (ih.mp (by rw [hss] ; rfl)) x hx

theorem parseSongs_length (urlOk : String → Bool) :
    ∀ (l : List RawSong) (ss : List Song),
      parseSongs urlOk l = some ss → ss.length = l.length := by
  intro l
  induction l with
  | nil => intro ss h ; simp [parseSongs] at h ; simp [← h]
  | cons rs rest ih =>
    intro ss h
    simp only [parseSongs] at h
    cases hs : parseSong urlOk rs <;> rw [hs] at h
    · simp at h
    · cases hss : parseSongs urlOk rest <;> rw [hss] at h
      · simp at h
      · rename_i s ss'
        rw [Option.some.injEq] at h
        subst h
        simp [ih ss' hss]

/-- C10: given the four required metadata strings, `insertVideoJobSchema`
accepts a body iff `songs` has exactly ten entries, each with all fields
present, a URL-shaped `file_url`, and a strictly positive length; a
rejected body is answered 400 and no job record is ever created. -/
theorem C10_validation_accepts_iff (urlOk : String → Bool) (r : RawRequest)
    (hv : r.video_creation_id.isSome = true) (ht : r.title.isSome = true)
    (hc : r.channel_id.isSome = true) (hth : r.thumbnail_url.isSome = true) :
    ((parseInsertVideoJob urlOk r).isSome = true ↔
      (r.songs.length = 10 ∧ ∀ rs ∈ r.songs, validSong urlOk rs)) ∧
    (parseInsertVideoJob urlOk r = none →
      postVideoJobs urlOk r = (400, []) ∧
      RouteEvent.createJob ∉ (postVideoJobs urlOk r).2) := by
  obtain ⟨v, hv'⟩ := Option.isSome_iff_exists.mp hv
  obtain ⟨t, ht'⟩ := Option.isSome_iff_exists.mp ht
  obtain ⟨c, hc'⟩ := Option.isSome_iff_exists.mp hc
  obtain ⟨th, hth'⟩ := Option.isSome_iff_exists.mp hth
  constructor
  · simp only [parseInsertVideoJob, hv', ht', hc', hth']
    cases hps : parseSongs urlOk r.songs with
    | none =>
      simp only [Option.isSome_none, Bool.false_eq_true, false_iff,
        not_and, not_forall]
      intro _
      by_contra hall
      push_neg at hall
      have : (parseSongs urlOk r.songs).isSome = true :=
        (parseSongs_isSome_iff urlOk r.songs).mpr
          fun rs hrs => (parseSong_isSome_iff urlOk rs).mpr (hall rs hrs)
      rw [hps] at this
      simp at this
    | some ss =>
      have hlen := parseSongs_length urlOk r.songs ss hps
      have hall : ∀ rs ∈ r.songs, validSong urlOk rs :=
        fun rs hrs => (parseSong_isSome_iff urlOk rs).mp
          ((parseSongs_isSome_iff urlOk r.songs).mp (by rw [hps] ; rfl) rs hrs)
      dsimp only
      constructor
      · intro h
        split_ifs at h with h10
        · exact ⟨by rw [← hlen] ; exact h10, hall⟩
        · simp at h
      · rintro ⟨h10, -⟩
        have h10' : ss.length = 10 := by rw [hlen] ; exact h10
        simp [h10']
  · intro hnone
    simp [postVideoJobs, hnone]

/-- C10 witness: a fully valid body with ten tracks is accepted. -/
theorem C10_validation_accepts_iff_witness :
    (parseInsertVideoJob urlHttp rawReqOk).isSome = true :=
  (C10_validation_accepts_iff urlHttp rawReqOk rfl rfl rfl rfl).1.mpr
    ⟨by decide, by
      intro rs hrs
      rw [List.eq_of_mem_replicate hrs]
      exact ⟨"track", "https://cdn.example.com/a.mp3", 120, rfl, rfl, rfl,
        by decide, by norm_num⟩⟩

/-- C3 counterexample: with every download fine and only the probe of
track 0 failing, the job ends `failed` with the probe error — there is no
declared-duration fallback in `processVideo` (the `Promise.all` of
`getAudioDuration` calls has no `catch`). -/
theorem C3_counterexample_probe_failure_fails_job :
    (pipelineEvents envProbeFail 10 "job1").map
        (fun p => (p.2, statusUpdates p.1)) =
      some (some PipelineError.probeError,
        [Status.downloading, Status.processing_audio, Status.failed]) := by
  decide

/-- C3 (amended): in the live pipeline a failed duration probe is fatal:
once past the downloads, any probe failure makes the run record
`downloading, processing_audio, failed` and the probe error — the
declared-duration fallback exists only in the legacy variant. -/
theorem C3_probe_failure_fails_job (env : Env) (n : ℕ) (jobId : String)
    (tr : List Event) (err : Option PipelineError)
    (h : pipelineEvents env n jobId = some (tr, err))
    (hmk : env.mkdirOk = true)
    (hdl : (downloadPhase env.coverResp env.trackResp n).2 = none)
    (hpr : ((List.range n).all fun i => (env.probeResult i).isSome) = false) :
    err = some PipelineError.probeError ∧
    statusUpdates tr = [Status.downloading, Status.processing_audio,
      Status.failed] := by
  simp [pipelineEvents, hmk, hdl, hpr] at h
  obtain ⟨htr, herr⟩ := h
  subst htr
  subst herr
  exact ⟨rfl, by simp [failTail]⟩

/-- C3 witness: `envProbeFail` satisfies the theorem's hypotheses. -/
theorem C3_probe_failure_fails_job_witness :
    statusUpdates
        (Event.mkdirWorkspace :: Event.setStatus Status.downloading ::
          (List.map Event.download
            (Asset.cover :: List.map Asset.track (List.range 10)) ++
            Event.setStatus Status.processing_audio ::
              (List.map Event.probe (List.range 10) ++ failTail))) =
      [Status.downloading, Status.processing_audio, Status.failed] :=
  (C3_probe_failure_fails_job envProbeFail 10 "job1"
    (Event.mkdirWorkspace :: Event.setStatus Status.downloading ::
      (List.map Event.download
        (Asset.cover :: List.map Asset.track (List.range 10)) ++
        Event.setStatus Status.processing_audio ::
          (List.map Event.probe (List.range 10) ++ failTail)))
    (some PipelineError.probeError)
    (by decide) rfl (by decide) (by decide)).2

/-- C4 counterexample: on a job where every step succeeds, a cancellation
request arriving after the `downloading` write (allowed by the route's
non-terminal guard) produces the observed status sequence
`queued, downloading, failed, processing_audio, creating_video, completed`:
a terminal `failed` is followed by earlier stages and a second terminal. -/
theorem C4_counterexample_cancel_breaks_path :
    (pipelineEvents envAllOk 10 "job1").map
        (fun p => cancelObserved (jobStatusSeq p.1) 2) =
      some [Status.queued, Status.downloading, Status.failed,
        Status.processing_audio, Status.creating_video, Status.completed] ∧
    ¬ claimPath [Status.queued, Status.downloading, Status.failed,
        Status.processing_audio, Status.creating_video, Status.completed] := by
  constructor
  · have hdp : downloadPhase okPngResponse (fun _ => okAudioResponse) 10 =
        (Asset.cover :: (List.range 10).map Asset.track, none) := by decide
    have hds : (List.range 10).map
        (fun i => ((some (180 : ℚ)).getD 0)) = List.replicate 10 (180 : ℚ) := by
      simp
    have hsum : (List.replicate 10 (180 : ℚ)).sum = 1800 := by
      simp [List.sum_replicate]
      norm_num
    have hcm : composeManifest (List.replicate 10 (180 : ℚ)) TARGET_DURATION =
        some (fillLoops TARGET_DURATION (List.replicate 10 (180 : ℚ)) 1 0) := by
      have hdiv : (1800 : ℚ) / 1800 = 1 := by norm_num
      norm_num [composeManifest, loopsNeeded, hsum, TARGET_DURATION, hdiv]
    simp only [pipelineEvents, envAllOk, hdp]
    norm_num [hds, hcm]
    simp [jobStatusSeq, cancelObserved, isTerminal, doneTail]
  · intro hcp
    exact absurd hcp.2 (by decide)

end VideoRender
